import Mathlib

/-!
Verification development for the `skills` repository's static-analysis scripts.

The definitions below are a shallow embedding of the Python sources:

* `src/code-analyzer/scripts/analyze.py` (`DeepCodeAnalyzer`): file discovery
  (`should_include`, `discover_files`), the per-file Python analysis
  (`analyze_python`, `_analyze_function`), the dispatch and error handling in
  `run`, and the report assembly (function-list truncation, entry points).
* `src/docs-improver/scripts/analyze.py` (`DocsAnalyzer.analyze`): the empty
  documentation-set branch.
* The circular-dependency detector described in the design document (section
  4.4) has no implementation under `src/`; it is modelled from the design
  document's words (three-colour depth-first search over an import graph with
  a reporting cap of 10) and is marked as such below.

Python machine details that are external to the repository (the CPython
parser `ast.parse`, the `re` module, `pathlib`, the filesystem) enter the
embedding as explicit inputs: a file carries the outcome of reading it and
the outcome of parsing it, and the regex-based JavaScript/Rust extractors are
abstract function parameters.
-/

/-! ## Python AST model

`DeepCodeAnalyzer.analyze_python` walks the tree produced by `ast.parse` and
inspects node kinds only (`ClassDef`, `FunctionDef`, `AsyncFunctionDef`,
`Import`, `ImportFrom`, and, for complexity, `If`/`For`/`While`/
`ExceptHandler`).  A node is therefore modelled as a kind together with the
list of its child nodes.  Payloads that no analysed code path reads (argument
lists, decorators, line numbers) are not represented. -/

inductive PyKind where
  | module : PyKind
  | ifK : PyKind
  | forK : PyKind
  | whileK : PyKind
  | tryK : PyKind
  | exceptHandler : PyKind
  | funcDef : String → PyKind
  | asyncFuncDef : String → PyKind
  | classDef : String → PyKind
  | importK : List String → PyKind
  | importFrom : Option String → PyKind
  | other : PyKind

inductive PyNode where
  | mk : PyKind → List PyNode → PyNode

def PyNode.kind : PyNode → PyKind
  | .mk k _ => k

/- All nodes of a subtree, the root included.  The CPython helper `ast.walk`
enumerates the same set of nodes (it yields them in breadth-first order; every
use of the walk in the analysed code is order-insensitive: counting nodes and
collecting per-kind entries). -/
mutual

def PyNode.walk : PyNode → List PyNode
  | .mk k cs => .mk k cs :: walkList cs

def walkList : List PyNode → List PyNode
  | [] => []
  | c :: cs => c.walk ++ walkList cs

end

/-- The node kinds counted at `analyze.py:261-263`:
`isinstance(child, (ast.If, ast.For, ast.While, ast.ExceptHandler))`. -/
def isDecision (n : PyNode) : Bool :=
  match n.kind with
  | .ifK => true
  | .forK => true
  | .whileK => true
  | .exceptHandler => true
  | _ => false

/-- `DeepCodeAnalyzer._analyze_function`, `analyze.py:239` and `260-263`:
`func.complexity` starts at 1 and the loop over `ast.walk(node)` adds 1 for
every decision node in the function's subtree.  No clamp is applied. -/
def complexity (n : PyNode) : Nat :=
  n.walk.foldl (fun c child => if isDecision child then c + 1 else c) 1

/-- Number of decision nodes in a subtree. -/
def decisionCount (n : PyNode) : Nat :=
  n.walk.countP isDecision

/-- An if-statement with an empty body and no children. -/
def bareIf : PyNode := .mk .ifK []

/-- A Python function whose body is `n` sibling `if` statements. -/
def funcWithIfs (n : Nat) : PyNode := .mk (.funcDef "f") (List.replicate n bareIf)

/-! ## Per-file Python extraction (`analyze_python`) -/

/-- Python substring test `pat in hay` (on the character lists of the two
strings). -/
def containsSub : List Char → List Char → Bool
  | [], pat => pat.isEmpty
  | c :: t, pat => pat.isPrefixOf (c :: t) || containsSub t pat

/-- `alias.name.split('.')[0]` / `node.module.split('.')[0]`
(`analyze.py:183,187`). -/
def headModule (s : String) : String := (s.splitOn ".").headD s

/-- Entry-point names, `analyze.py:243`. -/
def entry_point_names : List String := ["main", "run", "execute", "handle", "process"]

/-- Business-logic keywords, `analyze.py:247-248`. -/
def business_keywords : List String :=
  ["calculate", "validate", "create", "update", "delete",
   "process", "generate", "verify", "approve", "reject"]

/-- The fields of `FunctionInfo` (`analyze.py:24-37`) that the analysed code
paths consult.  Parameter lists, line ranges and call lists are populated by
the source but never read by any property treated here. -/
structure FunctionInfo where
  name : String
  file : String
  complexity : Nat
  is_entry_point : Bool
  business_logic : Bool
deriving DecidableEq, Repr

/-- `_analyze_function` (`analyze.py:229-269`) for a function node `n` whose
name is `name`, in file `relPath`. -/
def mkFunctionInfo (relPath name : String) (n : PyNode) : FunctionInfo :=
  { name := name
    file := relPath
    complexity := complexity n
    is_entry_point := entry_point_names.contains name
    business_logic := business_keywords.any
      (fun kw => containsSub name.toLower.data kw.data) }

/-- What one call of `analyze_python` adds to the analyser's state: function
entries keyed by the file path joined with the function name, class entries
keyed by the class name (projected to the class name and file), and the
tokens added to the `self.external_deps` set. -/
structure ExtractResult where
  functions : List (String × FunctionInfo)
  data_models : List (String × String)
  importTokens : List String
deriving DecidableEq, Repr

def emptyExtract : ExtractResult := ⟨[], [], []⟩

/-- One step of the `for node in ast.walk(tree)` loop of `analyze_python`
(`analyze.py:174-187`). -/
def pyExtractNode (relPath : String) (acc : ExtractResult) (n : PyNode) : ExtractResult :=
  match n.kind with
  | .funcDef name =>
      { acc with functions :=
          acc.functions ++ [(relPath ++ ":" ++ name, mkFunctionInfo relPath name n)] }
  | .asyncFuncDef name =>
      { acc with functions :=
          acc.functions ++ [(relPath ++ ":" ++ name, mkFunctionInfo relPath name n)] }
  | .classDef name => { acc with data_models := acc.data_models ++ [(name, relPath)] }
  | .importK names => { acc with importTokens := acc.importTokens ++ names.map headModule }
  | .importFrom (some m) => { acc with importTokens := acc.importTokens ++ [headModule m] }
  | _ => acc

/-- The successful branch of `analyze_python`: the walk over the parsed tree. -/
def extractPython (relPath : String) (tree : PyNode) : ExtractResult :=
  tree.walk.foldl (pyExtractNode relPath) emptyExtract

/-- Exceptions a per-file analysis can raise. -/
inductive PyExn where
  | nameError : String → PyExn
deriving DecidableEq, Repr

/-- `DeepCodeAnalyzer.analyze_python` (`analyze.py:167-190`).  `ast.parse` is
the external CPython parser, so its outcome is an input.  On a `SyntaxError`
the source's handler prints a warning that interpolates `rel_path`, but
`rel_path` is assigned only on line 171, after `ast.parse` has succeeded on
line 170 — so on the error path the handler itself raises a `NameError`
(the name `rel_path` is not defined there), which propagates out of
`analyze_python`. -/
def analyze_python (parseResult : Except String PyNode) (relPath : String) :
    Except PyExn ExtractResult :=
  match parseResult with
  | .ok tree => .ok (extractPython relPath tree)
  | .error _ => .error (.nameError "rel_path")

/-- The extension dispatch in `DeepCodeAnalyzer.run` (`analyze.py:563-569`).
The JavaScript/TypeScript and Rust extractors are pure regex scans over the
content (`re.finditer` with fixed valid patterns, which cannot raise), so they
are abstract total functions here.  Extensions with no extractor (`.java`,
`.go`, `.sql`, …) fall through the `if/elif` chain: nothing is extracted. -/
def analyzeFileDispatch (jsE rsE : String → ExtractResult) (ext : String)
    (parseResult : Except String PyNode) (relPath content : String) :
    Except PyExn ExtractResult :=
  if ext = ".py" then analyze_python parseResult relPath
  else if ext = ".js" ∨ ext = ".ts" then .ok (jsE content)
  else if ext = ".rs" then .ok (rsE content)
  else .ok emptyExtract

/-! ## File discovery (`should_include`, `discover_files`) -/

/-- A discovered filesystem entry: `str(file_path)` and `file_path.suffix`
(the suffix is computed by `pathlib`, outside the repository's code). -/
structure SrcFile where
  pathStr : String
  suffix : String
deriving DecidableEq, Repr

/-- The extension table of `should_include` (`analyze.py:153`). -/
def supported_suffixes : List String :=
  [".py", ".js", ".ts", ".java", ".go", ".rs", ".sql"]

/-- `DeepCodeAnalyzer.should_include` (`analyze.py:147-153`): the loop over
`self.exclude_patterns` returns `False` as soon as a pattern is a substring of
the full path; otherwise the suffix is looked up in the extension table.
There is no inclusion list anywhere in the class. -/
def should_include (exclude_patterns : List String) (f : SrcFile) : Bool :=
  if exclude_patterns.any (fun pat => containsSub f.pathStr.data pat.data) then false
  else supported_suffixes.contains f.suffix

/-- `DeepCodeAnalyzer.discover_files` (`analyze.py:155-165`) restricted to the
directory branch: `tree` stands for the regular files produced by
`self.root_path.rglob('*')` (the filesystem walk is external), and each is
kept iff `should_include` accepts it. -/
def discover_files (exclude_patterns : List String) (tree : List SrcFile) : List SrcFile :=
  tree.filter (should_include exclude_patterns)

/-! ## The analysis run (`DeepCodeAnalyzer.run`) -/

/-- Errors the interpreter can raise when opening a discovered file.
`errors='ignore'` makes decoding total, but `open` itself may still fail. -/
inductive IOErr where
  | permissionDenied : IOErr
  | fileNotFound : IOErr
deriving DecidableEq, Repr

/-- A discovered file together with the environment's answers for it: the
outcome of `open(...).read()` and, for `.py` files, the outcome of
`ast.parse` on that content. -/
structure TreeFile where
  relPath : String
  ext : String
  readResult : Except IOErr String
  pyParse : Except String PyNode

/-- The analyser's mutable state (`analyze.py:141-145`): `self.functions` and
`self.data_models` are insertion-ordered dicts (association lists here), and
`self.external_deps` is a set of strings (a duplicate-free insertion-ordered
list here). -/
structure AnalysisState where
  functions : List (String × FunctionInfo)
  data_models : List (String × String)
  external_deps : List String
deriving DecidableEq, Repr

/-- The state `DeepCodeAnalyzer.__init__` builds: every collection empty. -/
def initState : AnalysisState := ⟨[], [], []⟩

/-- Python dict assignment `d[k] = v`: overwrite in place if the key is
present, else append. -/
def assocInsert (l : List (String × α)) (k : String) (v : α) : List (String × α) :=
  if l.any (fun p => p.1 = k) then l.map (fun p => if p.1 = k then (k, v) else p)
  else l ++ [(k, v)]

/-- Python set insertion `s.add(x)`. -/
def setAdd (s : List String) (x : String) : List String :=
  if s.contains x then s else s ++ [x]

/-- Folding one file's extraction into the analyser state, as the loop bodies
of `analyze_python` do through `self.functions[key] = func`,
`self.data_models[name] = model` and `self.external_deps.add(...)`. -/
def mergeExtract (st : AnalysisState) (ex : ExtractResult) : AnalysisState :=
  { functions := ex.functions.foldl (fun fs kv => assocInsert fs kv.1 kv.2) st.functions
    data_models := ex.data_models.foldl (fun ds kv => assocInsert ds kv.1 kv.2) st.data_models
    external_deps := ex.importTokens.foldl setAdd st.external_deps }

/-- The per-file body of the analysis loop in `run` (`analyze.py:559-571`):
the whole read+analyse block is wrapped in `try/except Exception`, so a failed
`open` or an exception escaping an analyser leaves the state unchanged (a
warning is printed and the loop continues with the next file). -/
def analyzeLoopStep (jsE rsE : String → ExtractResult) (st : AnalysisState)
    (f : TreeFile) : AnalysisState :=
  match f.readResult with
  | .error _ => st
  | .ok content =>
      match analyzeFileDispatch jsE rsE f.ext f.pyParse f.relPath content with
      | .error _ => st
      | .ok ex => mergeExtract st ex

/-- The state after the analysis loop of one invocation.  Each invocation of
the script constructs a fresh `DeepCodeAnalyzer` (`main`, `analyze.py:767`),
so the fold always starts from `initState`. -/
def analysisState (jsE rsE : String → ExtractResult) (files : List TreeFile) :
    AnalysisState :=
  files.foldl (analyzeLoopStep jsE rsE) initState

/-- `len(content.split('\n'))`. -/
def countLines (c : String) : Nat := (c.splitOn "\n").length

/-- `analyze.py:577-580`: `total_lines` re-opens every discovered file with no
`try/except`; the generator inside `sum(...)` evaluates left to right and the
first failing `open` raises out of `run`. -/
def total_lines (files : List TreeFile) : Except IOErr Nat :=
  files.foldlM (fun acc f => f.readResult.map (fun c => acc + countLines c)) 0

/-- The report fields assembled by `run` (`analyze.py:574-606`) that the
properties below consult. -/
structure Report where
  total_files : Nat
  total_lines : Nat
  functions : List FunctionInfo
  entry_points : List FunctionInfo
  data_models : List (String × String)
  external_deps : List String
deriving DecidableEq, Repr

/-- Report assembly (`analyze.py:594-597`):
`self.report.functions = list(self.functions.values())[:50]` and
`self.report.entry_points = [f for f in self.report.functions if
f.is_entry_point]`. -/
def buildReport (st : AnalysisState) (tl : Nat) (nFiles : Nat) : Report :=
  let fns := (st.functions.map Prod.snd).take 50
  { total_files := nFiles
    total_lines := tl
    functions := fns
    entry_points := fns.filter (fun f => f.is_entry_point)
    data_models := st.data_models
    external_deps := st.external_deps }

/-- `DeepCodeAnalyzer.run` after discovery (`analyze.py:554-619`): the guarded
per-file loop, then the unguarded `total_lines` recomputation, then report
assembly.  An exception from `total_lines` is uncaught and aborts the run
before any report exists. -/
def runAnalyzer (jsE rsE : String → ExtractResult) (files : List TreeFile) :
    Except IOErr Report :=
  let st := analysisState jsE rsE files
  match total_lines files with
  | .error e => .error e
  | .ok tl => .ok (buildReport st tl files.length)

/-! ## Documentation analyzer (`src/docs-improver/scripts/analyze.py`) -/

/-- One issue record appended to `QualityReport.issues`. -/
structure DocIssue where
  severity : String
  type : String
  description : String
  fix : String
deriving DecidableEq, Repr

/-- The dict returned by `DocsAnalyzer._analyze_file` (its keys `overall`,
`completeness`, `accuracy`, `clarity`, `structure`, `maintainability`). -/
structure FileScores where
  overall : Nat
  completeness : Nat
  accuracy : Nat
  clarity : Nat
  structureDim : Nat
  maintainability : Nat
deriving DecidableEq, Repr

/-- `QualityReport` (`docs-improver/scripts/analyze.py:15-31`), restricted to
the scored fields and issues (the recommendation lists are not consulted by
any property here).  `files_analyzed` keeps each file's path and overall
score; the `stat()` size is external. -/
structure QualityReport where
  overall_score : Nat
  completeness_score : Nat
  accuracy_score : Nat
  clarity_score : Nat
  structure_score : Nat
  maintainability_score : Nat
  files_analyzed : List (String × Nat)
  issues : List DocIssue
deriving DecidableEq, Repr

/-- The dataclass defaults: every score 0, every list empty. -/
def initQualityReport : QualityReport := ⟨0, 0, 0, 0, 0, 0, [], []⟩

/-- The issue appended on the no-documentation branch
(`docs-improver/scripts/analyze.py:69-74`). -/
def noDocsIssue : DocIssue :=
  { severity := "critical"
    type := "no_docs"
    description := "No documentation files found"
    fix := "Create README.md with project overview" }

/-- `DocsAnalyzer.analyze` (`docs-improver/scripts/analyze.py:63-100`).
`analyzeFile` stands for `self._analyze_file` (which reads the filesystem, so
it is an input here); `docFiles` is `self.doc_files` as left by `scan`.  On
the empty list the report keeps its freshly-initialised scores, gets
`overall_score = 0` and exactly the one appended `no_docs` issue, and is
returned at once; otherwise every per-dimension score is the integer mean of
the per-file scores. -/
def docsAnalyze (analyzeFile : String → FileScores) (docFiles : List String) :
    QualityReport :=
  if docFiles.isEmpty then
    { initQualityReport with
        overall_score := 0
        issues := initQualityReport.issues ++ [noDocsIssue] }
  else
    let scores := docFiles.map analyzeFile
    let n := scores.length
    { initQualityReport with
        files_analyzed := (docFiles.zip scores).map (fun p => (p.1, p.2.overall))
        overall_score := (scores.map (fun s => s.overall)).sum / n
        completeness_score := (scores.map (fun s => s.completeness)).sum / n
        accuracy_score := (scores.map (fun s => s.accuracy)).sum / n
        clarity_score := (scores.map (fun s => s.clarity)).sum / n
        structure_score := (scores.map (fun s => s.structureDim)).sum / n
        maintainability_score := (scores.map (fun s => s.maintainability)).sum / n }

/-! ## Cycle detector

Modelled from the spec: no circular-dependency detector exists under `src/`;
the design document (section 4.4) specifies it as: build a mapping from
module identity to its raw import tokens; run depth-first search from every
unvisited node with a global visited (black) set persisting across roots and
a recursion stack local to the path being explored; on a gray-to-gray edge
(an edge back into the recursion stack) record, as a cycle, the suffix of the
current path from the target's first occurrence; report at most the first 10
cycles found. -/

/-- A dependency graph: module identity paired with its raw import tokens. -/
abbrev DepGraph : Type := List (String × List String)

/-- Import tokens of a module (empty for unknown modules). -/
def importsOf (g : DepGraph) (m : String) : List String :=
  match g.find? (fun p => p.1 = m) with
  | some p => p.2
  | none => []

/-- Modelled from the spec: a graph with no edges (every module's import list
is empty). -/
def NoEdges (g : DepGraph) : Prop := ∀ p ∈ g, p.2 = []

/-- State of the depth-first search: the black (fully explored) set and the
cycles recorded so far, in discovery order. -/
structure DfsState where
  black : List String
  cycles : List (List String)

/-- Modelled from the spec: the cycle recorded for a back-edge into `target`,
where `stack` is the recursion stack (most recent node first) — the suffix of
the current path from `target`'s first occurrence, in path order. -/
def extractCycle (target : String) (stack : List String) : List String :=
  ((stack.takeWhile (fun x => x ≠ target)) ++ [target]).reverse

/-- Modelled from the spec: one depth-first visit.  `path` is the recursion
stack below this frame; a neighbour on the stack is a gray-to-gray edge and
records a cycle, a black neighbour is skipped, and any other neighbour is
explored with this node pushed onto the stack.  After its neighbours the node
is marked black.  `fuel` bounds the recursion depth; the stack only ever
holds distinct unexplored nodes, so `|g| + 1` levels always suffice. -/
def dfsVisit (g : DepGraph) : Nat → String → List String → DfsState → DfsState
  | 0, _, _, st => st
  | fuel + 1, node, path, st =>
      if node ∈ st.black then st
      else
        let stack := node :: path
        let st' := (importsOf g node).foldl
          (fun s nb =>
            if nb ∈ stack then { s with cycles := s.cycles ++ [extractCycle nb stack] }
            else if nb ∈ s.black then s
            else dfsVisit g fuel nb stack s) st
        { st' with black := node :: st'.black }

/-- Modelled from the spec: every cycle found, searching from every module in
order with the black set persisting across roots. -/
def findAllCycles (g : DepGraph) : List (List String) :=
  ((g.map Prod.fst).foldl (fun st root => dfsVisit g (g.length + 1) root [] st)
    ⟨[], []⟩).cycles

/-- Modelled from the spec: the reported cycles — the first 10 found. -/
def detectCycles (g : DepGraph) : List (List String) :=
  (findAllCycles g).take 10

/-- A graph of eleven modules, each importing itself; the eleventh
self-import is truncated away by the reporting cap. -/
def elevenLoops : DepGraph :=
  [("a", ["a"]), ("b", ["b"]), ("c", ["c"]), ("d", ["d"]), ("e", ["e"]),
   ("f", ["f"]), ("g", ["g"]), ("h", ["h"]), ("i", ["i"]), ("j", ["j"]),
   ("k", ["k"])]

/-! ## Concrete inputs used by the theorems below -/

/-- `ast.parse("if x:\n  if y:\n    pass")`: a module whose body is one `if`
containing a nested `if` containing `pass`; no function definition. -/
def nestedIfModule : PyNode := .mk .module [.mk .ifK [.mk .ifK [.mk .other []]]]

/-- A function whose body is the same nested pair of `if` statements. -/
def nestedIfFunc : PyNode := .mk (.funcDef "f") [.mk .ifK [.mk .ifK [.mk .other []]]]

/-- A function with a straight-line body (no decision points). -/
def plainFunc : PyNode := .mk (.funcDef "g") [.mk .other []]

/-- The design document's literal discovery test file under `vendor`. -/
def vendorFile : SrcFile := ⟨"/x/vendor/y.py", ".py"⟩

/-- A supported file outside every excluded directory. -/
def keptFile : SrcFile := ⟨"/x/src/a.py", ".py"⟩

/-- A discovered `.py` file whose `open` raises `PermissionError`. -/
def unreadableFile : TreeFile :=
  ⟨"a.py", ".py", .error .permissionDenied, .error "unreadable"⟩

/-- An entry-point function record. -/
def mainFn : FunctionInfo := ⟨"main", "a.py", 1, true, false⟩

/-- Both states produced by analysing the same unchanged tree twice: each
script invocation constructs a fresh `DeepCodeAnalyzer` (`main`,
`analyze.py:767-768`), so both folds start from the state `__init__` builds. -/
def runTwice (jsE rsE : String → ExtractResult) (files : List TreeFile) :
    AnalysisState × AnalysisState :=
  (analysisState jsE rsE files, analysisState jsE rsE files)

/-! ## Helper lemmas -/

theorem foldl_decision_count (l : List PyNode) :
    ∀ c : Nat, l.foldl (fun c child => if isDecision child then c + 1 else c) c
      = c + l.countP isDecision := by
  induction l with
  | nil => intro c; simp
  | cons a l ih =>
      intro c
      by_cases h : isDecision a
      · simp [List.foldl_cons, h, ih, List.countP_cons, Nat.add_assoc, Nat.add_comm]
        omega
      · simp [List.foldl_cons, h, ih, List.countP_cons]

theorem complexity_eq (n : PyNode) : complexity n = 1 + decisionCount n := by
  rw [complexity, decisionCount, foldl_decision_count]

theorem walkList_replicate_bareIf (n : Nat) :
    (walkList (List.replicate n bareIf)).countP isDecision = n := by
  induction n with
  | zero => simp [walkList]
  | succ m ih =>
      simp only [List.replicate_succ, walkList, List.countP_append, ih]
      simp [PyNode.walk, bareIf, walkList, List.countP_cons, isDecision, PyNode.kind]
      omega

theorem complexity_funcWithIfs (n : Nat) : complexity (funcWithIfs n) = 1 + n := by
  rw [complexity_eq, funcWithIfs, decisionCount]
  simp only [PyNode.walk, List.countP_cons]
  rw [walkList_replicate_bareIf]
  simp [isDecision, PyNode.kind]

theorem foldl_preserve {α β : Type} (P : β → Prop) (f : β → α → β) (l : List α)
    (h : ∀ b a, a ∈ l → P b → P (f b a)) : ∀ b, P b → P (l.foldl f b) := by
  induction l with
  | nil => intro b hb; simpa using hb
  | cons x xs ih =>
      intro b hb
      simp only [List.foldl_cons]
      exact ih (fun b a ha => h b a (List.mem_cons_of_mem x ha)) (f b x)
        (h b x (List.mem_cons_self x xs) hb)

theorem foldl_establish {α β : Type} (P : β → Prop) (f : β → α → β) :
    ∀ (l : List α) (a : α), a ∈ l → (∀ b, P (f b a)) →
      (∀ b x, x ∈ l → P b → P (f b x)) → ∀ b, P (l.foldl f b) := by
  intro l
  induction l with
  | nil => intro a ha; cases ha
  | cons x xs ih =>
      intro a ha hstep hpres b
      simp only [List.foldl_cons]
      rcases List.mem_cons.mp ha with h | h
      · subst h
        exact foldl_preserve P f xs
          (fun b' a' ha' => hpres b' a' (List.mem_cons_of_mem _ ha')) (f b a) (hstep b)
      · exact ih a h hstep
          (fun b' y hy => hpres b' y (List.mem_cons_of_mem _ hy)) (f b x)

theorem extractCycle_self (m : String) (path : List String) :
    extractCycle m (m :: path) = [m] := by
  simp [extractCycle]

theorem dfsVisit_black_mono (g : DepGraph) (x : String) :
    ∀ (fuel : Nat) (node : String) (path : List String) (st : DfsState),
      x ∈ st.black → x ∈ (dfsVisit g fuel node path st).black := by
  intro fuel
  induction fuel with
  | zero => intro node path st hx; simpa [dfsVisit] using hx
  | succ n ih =>
      intro node path st hx
      simp only [dfsVisit]
      by_cases h : node ∈ st.black
      · rw [if_pos h]; exact hx
      · rw [if_neg h]
        refine List.mem_cons_of_mem node
          (foldl_preserve (fun s => x ∈ s.black)
            (fun s nb =>
              if nb ∈ node :: path then
                { s with cycles := s.cycles ++ [extractCycle nb (node :: path)] }
              else if nb ∈ s.black then s
              else dfsVisit g n nb (node :: path) s)
            (importsOf g node) ?_ st hx)
        intro s nb _ hs
        dsimp only
        by_cases h1 : nb ∈ node :: path
        · rw [if_pos h1]; exact hs
        · rw [if_neg h1]
          by_cases h2 : nb ∈ s.black
          · rw [if_pos h2]; exact hs
          · rw [if_neg h2]; exact ih nb (node :: path) s hs

theorem dfsVisit_cycles_mono (g : DepGraph) (c : List String) :
    ∀ (fuel : Nat) (node : String) (path : List String) (st : DfsState),
      c ∈ st.cycles → c ∈ (dfsVisit g fuel node path st).cycles := by
  intro fuel
  induction fuel with
  | zero => intro node path st hc; simpa [dfsVisit] using hc
  | succ n ih =>
      intro node path st hc
      simp only [dfsVisit]
      by_cases h : node ∈ st.black
      · rw [if_pos h]; exact hc
      · rw [if_neg h]
        refine foldl_preserve (fun s => c ∈ s.cycles)
          (fun s nb =>
            if nb ∈ node :: path then
              { s with cycles := s.cycles ++ [extractCycle nb (node :: path)] }
            else if nb ∈ s.black then s
            else dfsVisit g n nb (node :: path) s)
          (importsOf g node) ?_ st hc
        intro s nb _ hs
        dsimp only
        by_cases h1 : nb ∈ node :: path
        · rw [if_pos h1]
          exact List.mem_append_left _ hs
        · rw [if_neg h1]
          by_cases h2 : nb ∈ s.black
          · rw [if_pos h2]; exact hs
          · rw [if_neg h2]; exact ih nb (node :: path) s hs

theorem dfsVisit_self_black (g : DepGraph) (fuel : Nat) (node : String)
    (path : List String) (st : DfsState) :
    node ∈ (dfsVisit g (fuel + 1) node path st).black := by
  simp only [dfsVisit]
  by_cases h : node ∈ st.black
  · rw [if_pos h]; exact h
  · rw [if_neg h]
    exact List.mem_cons_self node _

theorem dfsVisit_selfloop_invariant (g : DepGraph) (m : String)
    (hm : m ∈ importsOf g m) :
    ∀ (fuel : Nat) (node : String) (path : List String) (st : DfsState),
      (m ∈ st.black → [m] ∈ st.cycles) →
      (m ∈ (dfsVisit g fuel node path st).black →
        [m] ∈ (dfsVisit g fuel node path st).cycles) := by
  intro fuel
  induction fuel with
  | zero => intro node path st hJ; simpa [dfsVisit] using hJ
  | succ n ih =>
      intro node path st hJ
      simp only [dfsVisit]
      by_cases h : node ∈ st.black
      · rw [if_pos h]; exact hJ
      · rw [if_neg h]
        have hJ' : (m ∈ ((importsOf g node).foldl
            (fun s nb =>
              if nb ∈ node :: path then
                { s with cycles := s.cycles ++ [extractCycle nb (node :: path)] }
              else if nb ∈ s.black then s
              else dfsVisit g n nb (node :: path) s) st).black →
            [m] ∈ ((importsOf g node).foldl
            (fun s nb =>
              if nb ∈ node :: path then
                { s with cycles := s.cycles ++ [extractCycle nb (node :: path)] }
              else if nb ∈ s.black then s
              else dfsVisit g n nb (node :: path) s) st).cycles) := by
          refine foldl_preserve (fun s => m ∈ s.black → [m] ∈ s.cycles)
            (fun s nb =>
              if nb ∈ node :: path then
                { s with cycles := s.cycles ++ [extractCycle nb (node :: path)] }
              else if nb ∈ s.black then s
              else dfsVisit g n nb (node :: path) s)
            (importsOf g node) ?_ st hJ
          intro s nb _ hs
          dsimp only
          by_cases h1 : nb ∈ node :: path
          · rw [if_pos h1]
            intro hmem
            exact List.mem_append_left _ (hs hmem)
          · rw [if_neg h1]
            by_cases h2 : nb ∈ s.black
            · rw [if_pos h2]; exact hs
            · rw [if_neg h2]; exact ih nb (node :: path) s hs
        intro hmem
        rcases List.mem_cons.mp hmem with heq | hmem'
        · subst heq
          refine foldl_establish (fun s => [m] ∈ s.cycles)
            (fun s nb =>
              if nb ∈ m :: path then
                { s with cycles := s.cycles ++ [extractCycle nb (m :: path)] }
              else if nb ∈ s.black then s
              else dfsVisit g n nb (m :: path) s)
            (importsOf g m) m hm ?_ ?_ st
          · intro s
            dsimp only
            rw [if_pos (List.mem_cons_self m path), extractCycle_self]
            exact List.mem_append_right _ (List.mem_singleton.mpr rfl)
          · intro s nb _ hs
            dsimp only
            by_cases h1 : nb ∈ m :: path
            · rw [if_pos h1]
              exact List.mem_append_left _ hs
            · rw [if_neg h1]
              by_cases h2 : nb ∈ s.black
              · rw [if_pos h2]; exact hs
              · rw [if_neg h2]; exact dfsVisit_cycles_mono g [m] n nb (m :: path) s hs
        · exact hJ' hmem'

theorem importsOf_noEdges (g : DepGraph) (h : NoEdges g) (m : String) :
    importsOf g m = [] := by
  unfold importsOf
  cases hf : g.find? (fun p => p.1 = m) with
  | none => rfl
  | some p => exact h p (List.mem_of_find?_eq_some hf)

theorem dfsVisit_cycles_noEdges (g : DepGraph) (h : NoEdges g) :
    ∀ (fuel : Nat) (node : String) (path : List String) (st : DfsState),
      (dfsVisit g fuel node path st).cycles = st.cycles := by
  intro fuel
  cases fuel with
  | zero => intro node path st; simp [dfsVisit]
  | succ n =>
      intro node path st
      simp only [dfsVisit]
      by_cases hb : node ∈ st.black
      · rw [if_pos hb]
      · rw [if_neg hb]
        have hi : importsOf g node = [] := importsOf_noEdges g h node
        rw [hi]
        simp [List.foldl_nil]

theorem selfImport_in_findAllCycles (g : DepGraph) (m : String)
    (hroot : m ∈ g.map Prod.fst) (hself : m ∈ importsOf g m) :
    [m] ∈ findAllCycles g := by
  unfold findAllCycles
  have hblack : m ∈ ((g.map Prod.fst).foldl
      (fun st root => dfsVisit g (g.length + 1) root [] st) ⟨[], []⟩).black := by
    refine foldl_establish (fun st => m ∈ st.black)
      (fun st root => dfsVisit g (g.length + 1) root [] st)
      (g.map Prod.fst) m hroot ?_ ?_ ⟨[], []⟩
    · intro st; exact dfsVisit_self_black g g.length m [] st
    · intro st r _ hst; exact dfsVisit_black_mono g m (g.length + 1) r [] st hst
  have hJ : m ∈ ((g.map Prod.fst).foldl
      (fun st root => dfsVisit g (g.length + 1) root [] st) ⟨[], []⟩).black →
      [m] ∈ ((g.map Prod.fst).foldl
      (fun st root => dfsVisit g (g.length + 1) root [] st) ⟨[], []⟩).cycles := by
    refine foldl_preserve (fun st => m ∈ st.black → [m] ∈ st.cycles)
      (fun st root => dfsVisit g (g.length + 1) root [] st)
      (g.map Prod.fst) ?_ ⟨[], []⟩ ?_
    · intro st r _ hst
      exact dfsVisit_selfloop_invariant g m hself (g.length + 1) r [] st hst
    · intro hmm
      exact absurd hmm (List.not_mem_nil m)
  exact hJ hblack

theorem findAllCycles_noEdges (g : DepGraph) (h : NoEdges g) :
    findAllCycles g = [] := by
  unfold findAllCycles
  have key : ∀ (roots : List String) (st : DfsState), st.cycles = [] →
      (roots.foldl (fun st root => dfsVisit g (g.length + 1) root [] st) st).cycles
        = [] := by
    intro roots
    induction roots with
    | nil => intro st h0; simpa using h0
    | cons r rs ih =>
        intro st h0
        simp only [List.foldl_cons]
        exact ih _ (by rw [dfsVisit_cycles_noEdges g h]; exact h0)
  exact key (g.map Prod.fst) ⟨[], []⟩ rfl

/-! ## Claim theorems -/

/-- C1 (counterexample): the claim states the complexity scorer always
returns a value in the closed interval [1, 50]; the source applies no clamp —
a function containing 50 `if` statements scores 51. -/
theorem c1_counterexample :
    complexity (funcWithIfs 50) = 51 ∧ ¬ complexity (funcWithIfs 50) ≤ 50 := by
  have h := complexity_funcWithIfs 50
  omega

/-- C1 (amended): the score of a function node is computed by starting at 1
and adding the number of decision-point nodes (`If`/`For`/`While`/
`ExceptHandler`) in the node's whole subtree; it is always at least 1, it is
a per-function (not per-file) metric, and no clamp is applied — the score
exceeds any bound for large enough inputs. -/
theorem c1_complexity_characterisation :
    (∀ n : PyNode, complexity n = 1 + decisionCount n ∧ 1 ≤ complexity n) ∧
    (∀ k : Nat, ∃ n : PyNode, k < complexity n) := by
  constructor
  · intro n
    refine ⟨complexity_eq n, ?_⟩
    rw [complexity_eq]
    omega
  · intro k
    refine ⟨funcWithIfs k, ?_⟩
    rw [complexity_funcWithIfs]
    omega

/-- C2 (counterexample): in a graph of eleven self-importing modules the
module `k` imports itself and the search does record the 1-element cycle
`[k]`, but the reported list is capped at the first 10 cycles, so `[k]` is
not reported — the claim cannot both report every self-importer and stay
within the cap of 10 on this graph. -/
theorem c2_counterexample :
    ("k", ["k"]) ∈ elevenLoops ∧ ["k"] ∈ findAllCycles elevenLoops ∧
      ["k"] ∉ detectCycles elevenLoops :=
  ⟨by decide, by decide, by decide⟩

/-- C2 (amended): the depth-first search always records a self-importing
module as the 1-element cycle `[m]` (it is reported whenever the cap of 10
has not already been filled by cycles found earlier); a graph with no edges
yields zero cycles; the number of cycles reported never exceeds 10. -/
theorem c2_cycle_detector (g : DepGraph) (m : String) :
    (m ∈ g.map Prod.fst → m ∈ importsOf g m → [m] ∈ findAllCycles g) ∧
    (NoEdges g → detectCycles g = []) ∧
    (detectCycles g).length ≤ 10 := by
  refine ⟨fun h1 h2 => selfImport_in_findAllCycles g m h1 h2, ?_, ?_⟩
  · intro h
    rw [detectCycles, findAllCycles_noEdges g h]
    rfl
  · rw [detectCycles]
    simp only [List.length_take]
    exact min_le_left _ _

/-- C2 witness: concrete instances of the three parts of the amended
statement. -/
theorem c2_cycle_detector_witness :
    ["a"] ∈ findAllCycles [("a", ["a"])] ∧ detectCycles [("x", [])] = [] ∧
      (detectCycles [("a", ["a"])]).length ≤ 10 :=
  ⟨(c2_cycle_detector [("a", ["a"])] "a").1 (by decide) (by decide),
   (c2_cycle_detector [("x", [])] "x").2.1
     (fun p hp => by rw [List.mem_singleton.mp hp]),
   (c2_cycle_detector [("a", ["a"])] "a").2.2⟩

/-- C3 (code bug): on content that fails to parse, `analyze_python` does not
degrade to an empty extraction — its `SyntaxError` handler references
`rel_path`, which is only assigned after a successful parse, so the handler
raises `NameError`; by contrast an extension with no extractor (`.java`)
extracts nothing and raises nothing. -/
theorem c3_analyze_python_raises (jsE rsE : String → ExtractResult)
    (relPath content : String) :
    analyzeFileDispatch jsE rsE ".py" (.error "invalid syntax") relPath content
        = .error (.nameError "rel_path") ∧
    analyzeFileDispatch jsE rsE ".java" (.ok (.mk .module [])) relPath content
        = .ok emptyExtract :=
  ⟨rfl, rfl⟩

/-- C4 (counterexample): for the content `"if x:\n  if y:\n    pass"` the
claim expects a complexity score of 3; the source computes complexity only
inside `_analyze_function`, and this module has no function definition, so
the analysis records no function and no complexity score at all. -/
theorem c4_counterexample :
    (extractPython "a.py" nestedIfModule).functions = [] ∧
    (extractPython "a.py" nestedIfModule).functions.map
      (fun kv => kv.2.complexity) = [] :=
  ⟨rfl, rfl⟩

/-- C4 (amended): a function node with no decision-point node in its subtree
has complexity exactly 1, and a function whose body is
`if x:\n  if y:\n    pass` has complexity exactly 3 (base 1 plus two `if`);
module-level content outside any function receives no score. -/
theorem c4_complexity_values :
    (∀ n : PyNode, decisionCount n = 0 → complexity n = 1) ∧
    complexity nestedIfFunc = 3 := by
  constructor
  · intro n h
    rw [complexity_eq, h]
  · decide

/-- C4 witness: a concrete function with a straight-line body. -/
theorem c4_complexity_values_witness :
    decisionCount plainFunc = 0 ∧ complexity plainFunc = 1 :=
  ⟨by decide, c4_complexity_values.1 plainFunc (by decide)⟩

/-- C5 (counterexample): the claim states the score never exceeds 50; a
function containing 60 `if` statements scores 61. -/
theorem c5_counterexample : 50 < complexity (funcWithIfs 60) := by
  have h := complexity_funcWithIfs 60
  omega

/-- C5 (amended): complexity is monotonically non-decreasing in the
decision-point count, but it is unclamped and can exceed 50. -/
theorem c5_monotone :
    (∀ a b : PyNode, decisionCount a ≤ decisionCount b →
      complexity a ≤ complexity b) ∧
    (∃ n : PyNode, 50 < complexity n) := by
  constructor
  · intro a b h
    rw [complexity_eq, complexity_eq]
    omega
  · refine ⟨funcWithIfs 60, ?_⟩
    have h := complexity_funcWithIfs 60
    omega

/-- C5 witness: a single `if` against a function with two `if` statements. -/
theorem c5_monotone_witness :
    decisionCount bareIf ≤ decisionCount (funcWithIfs 2) ∧
    complexity bareIf ≤ complexity (funcWithIfs 2) :=
  ⟨by decide, c5_monotone.1 bareIf (funcWithIfs 2) (by decide)⟩

/-- C6: every discovered file has a supported extension, and a file whose
full path contains any exclude-pattern substring is never discovered —
regardless of any inclusion list, since `DeepCodeAnalyzer` has no inclusion
mechanism at all (the `_inclusion_patterns` binder records that the result
holds for every such list). -/
theorem c6_discovery (exclude_patterns _inclusion_patterns : List String)
    (tree : List SrcFile) :
    (∀ f ∈ discover_files exclude_patterns tree, f.suffix ∈ supported_suffixes) ∧
    (∀ f : SrcFile, (∃ pat ∈ exclude_patterns,
        containsSub f.pathStr.data pat.data = true) →
      f ∉ discover_files exclude_patterns tree) := by
  constructor
  · intro f hf
    have h := List.of_mem_filter hf
    unfold should_include at h
    by_cases hex :
      exclude_patterns.any (fun pat => containsSub f.pathStr.data pat.data)
    · rw [if_pos hex] at h
      cases h
    · rw [if_neg hex] at h
      simpa using h
  · rintro f ⟨pat, hpat, hsub⟩ hmem
    have h := List.of_mem_filter hmem
    unfold should_include at h
    have hex :
        exclude_patterns.any (fun pat => containsSub f.pathStr.data pat.data)
          = true :=
      List.any_eq_true.mpr ⟨pat, hpat, hsub⟩
    rw [if_pos hex] at h
    cases h

/-- C6 witness: `/x/vendor/y.py` with exclude pattern `vendor` is dropped
even though the inclusion list mentions `y.py`. -/
theorem c6_discovery_witness :
    vendorFile ∉ discover_files ["vendor"] [vendorFile, keptFile] :=
  (c6_discovery ["vendor"] ["y.py"] [vendorFile, keptFile]).2 vendorFile
    ⟨"vendor", by decide, by decide⟩

/-- C7: analysing the same unchanged tree twice yields identical function,
data-model and import collections — each invocation folds the file list from
the fresh state built by `__init__`, with no state carried over. -/
theorem c7_rerun_identical (jsE rsE : String → ExtractResult)
    (files : List TreeFile) :
    (runTwice jsE rsE files).2.functions = (runTwice jsE rsE files).1.functions ∧
    (runTwice jsE rsE files).2.data_models
        = (runTwice jsE rsE files).1.data_models ∧
    (runTwice jsE rsE files).2.external_deps
        = (runTwice jsE rsE files).1.external_deps :=
  ⟨rfl, rfl, rfl⟩

/-- C8 (code bug): the guarded per-file loop does skip an unreadable file
(the state stays at its initial value), but `run` then re-opens every
discovered file for `total_lines` without a `try/except`, so the same
unreadable file aborts the whole run and no report is produced. -/
theorem c8_run_aborts (jsE rsE : String → ExtractResult) :
    runAnalyzer jsE rsE [unreadableFile] = .error .permissionDenied ∧
    analysisState jsE rsE [unreadableFile] = initState :=
  ⟨rfl, rfl⟩

/-- C9: the assembled report holds at most 50 functions, its entry points are
drawn from that truncated list, and a function absent from the truncated list
never appears among the entry points — even one flagged as an entry point. -/
theorem c9_report_truncation (st : AnalysisState) (tl nFiles : Nat) :
    (buildReport st tl nFiles).functions.length ≤ 50 ∧
    (∀ f, f ∈ (buildReport st tl nFiles).entry_points →
      f ∈ (buildReport st tl nFiles).functions) ∧
    (∀ f : FunctionInfo, f ∉ (buildReport st tl nFiles).functions →
      f ∉ (buildReport st tl nFiles).entry_points) := by
  refine ⟨?_, ?_, ?_⟩
  · simp only [buildReport, List.length_take]
    exact min_le_left _ _
  · intro f hf
    simp only [buildReport] at hf ⊢
    exact List.mem_of_mem_filter hf
  · intro f hf hmem
    simp only [buildReport] at hf hmem
    exact hf (List.mem_of_mem_filter hmem)

/-- C9 witness: an entry-point function that is not among the (here empty)
truncated functions is absent from the entry points. -/
theorem c9_report_truncation_witness :
    mainFn ∉ (buildReport initState 0 0).entry_points :=
  (c9_report_truncation initState 0 0).2.2 mainFn (by decide)

/-- C10: when scanning found no documentation files, the returned report has
overall score exactly 0, exactly one issue — severity `critical`, type
`no_docs` — and all five dimension scores still 0. -/
theorem c10_docs_empty (analyzeFile : String → FileScores) :
    (docsAnalyze analyzeFile []).overall_score = 0 ∧
    (docsAnalyze analyzeFile []).issues = [noDocsIssue] ∧
    (docsAnalyze analyzeFile []).issues.length = 1 ∧
    noDocsIssue.severity = "critical" ∧
    noDocsIssue.type = "no_docs" ∧
    (docsAnalyze analyzeFile []).completeness_score = 0 ∧
    (docsAnalyze analyzeFile []).accuracy_score = 0 ∧
    (docsAnalyze analyzeFile []).clarity_score = 0 ∧
    (docsAnalyze analyzeFile []).structure_score = 0 ∧
    (docsAnalyze analyzeFile []).maintainability_score = 0 :=
  ⟨rfl, rfl, rfl, rfl, rfl, rfl, rfl, rfl, rfl, rfl⟩
